import Mathlib

/-!
Verification development for the study-pal document/chat/quiz pipeline.

The definitions below are shallow embeddings of the application's core
logic: JavaScript strings are modelled as Lean `String`/`List Char`,
JSON values as an inductive `Json` with a recursive-descent parser
modelling `JSON.parse` (integer-mantissa decimal numbers; success/throw
becomes `Option`), promises and thrown exceptions as `Except String`,
and the per-document state updates as explicit traces of document
snapshots.
-/

set_option maxRecDepth 4096

namespace StudyPal

/-- Whitespace characters recognised by JavaScript `String.prototype.trim`
(core set: space, tab, LF, CR, VT, FF, NBSP). -/
def isJsSpace (c : Char) : Bool :=
  c = ' ' || c = '\t' || c = '\n' || c = '\r' ||
  c = Char.ofNat 11 || c = Char.ofNat 12 || c = Char.ofNat 0xA0

/-- `trim` on a character list: strip leading and trailing whitespace. -/
def jsTrimList (cs : List Char) : List Char :=
  ((cs.dropWhile isJsSpace).reverse.dropWhile isJsSpace).reverse

/-- JavaScript `String.prototype.trim`. -/
def jsTrim (s : String) : String := ⟨jsTrimList s.data⟩

/-- Leftmost occurrence of the character sequence `d` in a list:
returns the text before the occurrence and the text after it. -/
def splitFirst (d : List Char) : List Char → Option (List Char × List Char)
  | [] => if d.isEmpty then some ([], []) else none
  | c :: cs =>
    if d.isPrefixOf (c :: cs) then some ([], (c :: cs).drop d.length)
    else (splitFirst d cs).map fun p => (c :: p.1, p.2)

theorem splitFirst_append (d : List Char) :
    ∀ (s pre rest : List Char), splitFirst d s = some (pre, rest) →
      s = pre ++ d ++ rest := by
  intro s
  induction s with
  | nil =>
    intro pre rest h
    simp only [splitFirst] at h
    split at h
    · next hd =>
      simp only [Option.some.injEq, Prod.mk.injEq] at h
      simp [List.isEmpty_iff] at hd
      simp [hd, ← h.1, ← h.2]
    · exact absurd h (by simp)
  | cons c cs ih =>
    intro pre rest h
    simp only [splitFirst] at h
    split at h
    · next hd =>
      simp only [Option.some.injEq, Prod.mk.injEq] at h
      rw [List.isPrefixOf_iff_prefix] at hd
      obtain ⟨t, ht⟩ := hd
      have hdrop : (c :: cs).drop d.length = t := by
        rw [← ht]; exact List.drop_left d t
      rw [← h.1, ← h.2, hdrop]
      simp [← ht]
    · next hd =>
      simp only [Option.map_eq_some'] at h
      obtain ⟨⟨p1, p2⟩, hp, heq⟩ := h
      simp only [Prod.mk.injEq] at heq
      have := ih p1 p2 hp
      simp [← heq.1, ← heq.2, this]

theorem splitFirst_length (d s pre rest : List Char)
    (h : splitFirst d s = some (pre, rest)) :
    s.length = pre.length + d.length + rest.length := by
  have := splitFirst_append d s pre rest h
  simp [this]
  omega

/-! ## JSON values and a model of `JSON.parse`

Numbers are stored exactly as `mantissa × 10 ^ exponent10` (JavaScript
converts to binary floating point; the quiz wire format only carries
small integers, for which the two readings agree). -/

inductive Json where
  | null
  | bool (b : Bool)
  | num (mantissa : Int) (exponent10 : Int)
  | str (s : String)
  | arr (elems : List Json)
  | obj (fields : List (String × Json))
deriving Inhabited, Repr

/-- JSON whitespace (RFC 8259): space, tab, LF, CR. -/
def isJsonWs (c : Char) : Bool :=
  c = ' ' || c = '\t' || c = '\n' || c = '\r'

def isDigitChar (c : Char) : Bool := '0' ≤ c && c ≤ '9'

def digitsToNat (ds : List Char) : Nat :=
  ds.foldl (fun a c => a * 10 + (c.toNat - 48)) 0

def hexDigitVal (c : Char) : Option Nat :=
  if '0' ≤ c && c ≤ '9' then some (c.toNat - 48)
  else if 'a' ≤ c && c ≤ 'f' then some (c.toNat - 87)
  else if 'A' ≤ c && c ≤ 'F' then some (c.toNat - 55)
  else none

/-- Body of a JSON string literal (opening quote already consumed).
Returns the decoded characters and the remaining input after the closing
quote.  Unescaped control characters are rejected, as `JSON.parse` does;
`\u` escapes for surrogate code units are rejected (Lean `Char` carries
scalar values only; the quiz wire format does not use them). -/
def parseJsonStringBody : List Char → Option (List Char × List Char)
  | [] => none
  | c :: cs =>
    if c = '"' then some ([], cs)
    else if c = '\\' then
      match cs with
      | [] => none
      | e :: cs2 =>
        if e = '"' ∨ e = '\\' ∨ e = '/' then
          (parseJsonStringBody cs2).map fun p => (e :: p.1, p.2)
        else if e = 'b' then
          (parseJsonStringBody cs2).map fun p => (Char.ofNat 8 :: p.1, p.2)
        else if e = 'f' then
          (parseJsonStringBody cs2).map fun p => (Char.ofNat 12 :: p.1, p.2)
        else if e = 'n' then
          (parseJsonStringBody cs2).map fun p => ('\n' :: p.1, p.2)
        else if e = 'r' then
          (parseJsonStringBody cs2).map fun p => ('\r' :: p.1, p.2)
        else if e = 't' then
          (parseJsonStringBody cs2).map fun p => ('\t' :: p.1, p.2)
        else if e = 'u' then
          match cs2 with
          | h1 :: h2 :: h3 :: h4 :: cs3 =>
            match hexDigitVal h1, hexDigitVal h2, hexDigitVal h3, hexDigitVal h4 with
            | some v1, some v2, some v3, some v4 =>
              let n := ((v1 * 16 + v2) * 16 + v3) * 16 + v4
              if h : n < 0xd800 ∨ (0xdfff < n ∧ n < 0x110000) then
                (parseJsonStringBody cs3).map fun p => (Char.ofNatAux n (by omega) :: p.1, p.2)
              else none
            | _, _, _, _ => none
          | _ => none
        else none
    else if c.toNat < 32 then none
    else (parseJsonStringBody cs).map fun p => (c :: p.1, p.2)

/-- A JSON number starting at the head of the input. -/
def parseJsonNumber (cs : List Char) : Option (Json × List Char) :=
  let (neg, cs1) :=
    match cs with
    | '-' :: rest => (true, rest)
    | _ => (false, cs)
  let intDigits := cs1.takeWhile isDigitChar
  let cs2 := cs1.dropWhile isDigitChar
  if intDigits.isEmpty then none
  else if intDigits.length > 1 ∧ intDigits.headD '0' = '0' then none
  else
    let (fracDigits, cs3) :=
      match cs2 with
      | '.' :: rest => (rest.takeWhile isDigitChar, rest.dropWhile isDigitChar)
      | _ => ([], cs2)
    if (match cs2 with | '.' :: _ => fracDigits.isEmpty | _ => false) then none
    else
      let expPart : Option (Int × List Char) :=
        match cs3 with
        | e :: rest =>
          if e = 'e' ∨ e = 'E' then
            let (esign, rest1) :=
              match rest with
              | '+' :: r => ((1 : Int), r)
              | '-' :: r => ((-1 : Int), r)
              | _ => ((1 : Int), rest)
            let expDigits := rest1.takeWhile isDigitChar
            if expDigits.isEmpty then none
            else some (esign * (digitsToNat expDigits : Int), rest1.dropWhile isDigitChar)
          else some (0, cs3)
        | [] => some (0, cs3)
      match expPart with
      | none => none
      | some (e, cs4) =>
        let mantissa : Int := (digitsToNat (intDigits ++ fracDigits) : Int)
        let mantissa := if neg then -mantissa else mantissa
        some (.num mantissa (e - (fracDigits.length : Int)), cs4)

def leftBraceChar : Char := Char.ofNat 123
def rightBraceChar : Char := Char.ofNat 125

mutual

/-- Recursive-descent JSON value, fuelled (fuel bounds the nesting walk;
the top-level entry point supplies `length + 1`, which is ample because
every recursive step consumes at least one input character). -/
def parseJsonValue : Nat → List Char → Option (Json × List Char)
  | 0, _ => none
  | fuel + 1, cs =>
    let cs := cs.dropWhile isJsonWs
    match cs with
    | [] => none
    | c :: rest =>
      if c = 'n' then
        if ['u', 'l', 'l'].isPrefixOf rest then some (.null, rest.drop 3) else none
      else if c = 't' then
        if ['r', 'u', 'e'].isPrefixOf rest then some (.bool true, rest.drop 3) else none
      else if c = 'f' then
        if ['a', 'l', 's', 'e'].isPrefixOf rest then some (.bool false, rest.drop 4) else none
      else if c = '"' then
        (parseJsonStringBody rest).map fun p => (.str ⟨p.1⟩, p.2)
      else if c = '[' then
        let rest1 := rest.dropWhile isJsonWs
        match rest1 with
        | ']' :: r2 => some (.arr [], r2)
        | _ =>
          (parseJsonArrayItems fuel rest).map fun p => (.arr p.1, p.2)
      else if c = leftBraceChar then
        let rest1 := rest.dropWhile isJsonWs
        match rest1 with
        | c2 :: r2 =>
          if c2 = rightBraceChar then some (.obj [], r2)
          else (parseJsonObjectItems fuel rest).map fun p => (.obj p.1, p.2)
        | [] => none
      else if c = '-' ∨ isDigitChar c then
        parseJsonNumber (c :: rest)
      else none

/-- Comma-separated array elements, up to and including the closing bracket. -/
def parseJsonArrayItems : Nat → List Char → Option (List Json × List Char)
  | 0, _ => none
  | fuel + 1, cs =>
    match parseJsonValue fuel cs with
    | none => none
    | some (v, rest) =>
      let rest := rest.dropWhile isJsonWs
      match rest with
      | ',' :: r2 => (parseJsonArrayItems fuel r2).map fun p => (v :: p.1, p.2)
      | ']' :: r2 => some ([v], r2)
      | _ => none

/-- Comma-separated object members, up to and including the closing brace. -/
def parseJsonObjectItems : Nat → List Char → Option (List (String × Json) × List Char)
  | 0, _ => none
  | fuel + 1, cs =>
    let cs := cs.dropWhile isJsonWs
    match cs with
    | '"' :: rest =>
      match parseJsonStringBody rest with
      | none => none
      | some (key, rest1) =>
        let rest1 := rest1.dropWhile isJsonWs
        match rest1 with
        | ':' :: r2 =>
          match parseJsonValue fuel r2 with
          | none => none
          | some (v, r3) =>
            let r3 := r3.dropWhile isJsonWs
            match r3 with
            | ',' :: r4 =>
              (parseJsonObjectItems fuel r4).map fun p => ((⟨key⟩, v) :: p.1, p.2)
            | c5 :: r5 =>
              if c5 = rightBraceChar then some ([(⟨key⟩, v)], r5) else none
            | [] => none
        | _ => none
    | _ => none

end

/-- Model of `JSON.parse`: `some` is a successful parse, `none` is a
thrown `SyntaxError`. -/
def Json.parse (s : String) : Option Json :=
  match parseJsonValue (s.data.length + 1) s.data with
  | some (j, rest) => if (rest.dropWhile isJsonWs).isEmpty then some j else none
  | none => none

/-! ## Chat data model (`types.ts`) -/

inductive Sender where
  | user
  | bot
deriving DecidableEq, Repr

structure ChatMessage where
  sender : Sender
  text : String
deriving DecidableEq, Repr

/-- The fixed greeting seeded into `chatHistory` when processing finishes
(`constants.ts`). -/
def initialBotMessage : ChatMessage :=
  ⟨.bot, "Hello! I\x27ve finished reading your document. What would you like to know? You can ask me a question or try one of the suggestions below. Let\x27s get learning! 🚀"⟩

/-- Opaque handle for the external chat session (`Chat` from the genai SDK). -/
structure Chat where
  sessionId : Nat := 0
deriving DecidableEq, Repr

/-! ## Quiz payload scanning (`InteractionPanel.tsx`, `handleSendMessage`)

The bot response is scanned with the regular expression
`/<quiz_data>([\s\S]*?)<\/quiz_data>/`: leftmost opening tag, laziest
closing tag, capture may span lines.  That is exactly "text between the
first `<quiz_data>` and the first `</quiz_data>` after it". -/

def quizOpenTag : List Char := "<quiz_data>".data
def quizCloseTag : List Char := "</quiz_data>".data

/-- First capture group of the quiz regular expression, if the response
matches. -/
def quizCapture (s : String) : Option String :=
  match splitFirst quizOpenTag s.data with
  | none => none
  | some (_, rest) =>
    match splitFirst quizCloseTag rest with
    | none => none
    | some (cap, _) => some ⟨cap⟩

/-- Outcome of one chat turn in `handleSendMessage` after the bot
response arrives. -/
inductive QuizTurnOutcome where
  | plainBot (text : String)
  | quizAccepted (quiz : Json)
  | quizFormatError
deriving Repr

def quizSuccessMessage : String :=
  "Great! I\x27ve created a quiz for you. Check it out! 👇"

def quizErrorMessage : String :=
  "I tried to create a quiz, but there was an error in the format. Please try asking again."

/-- The quiz-detection logic of `handleSendMessage`: if the regex matched
with a truthy (non-empty) capture, `JSON.parse` the capture; on success
the parsed value is stored via `setCurrentQuiz` with no further
validation, on a parse exception a fixed apology is produced.  With no
match (or an empty capture, which is falsy) the response text is
appended as an ordinary bot message. -/
def handleBotResponse (botResponseText : String) : QuizTurnOutcome :=
  match quizCapture botResponseText with
  | some payload =>
    if payload.isEmpty then .plainBot botResponseText
    else
      match Json.parse payload with
      | some quizJson => .quizAccepted quizJson
      | none => .quizFormatError
  | none => .plainBot botResponseText

/-- The `currentQuiz` value at the end of the turn (it is reset to `null`
when the turn starts and only set in the accepted branch). -/
def turnQuiz (o : QuizTurnOutcome) : Option Json :=
  match o with
  | .quizAccepted j => some j
  | _ => none

/-- The bot message appended to the chat history for the turn. -/
def turnBotMessage (o : QuizTurnOutcome) : ChatMessage :=
  match o with
  | .plainBot t => ⟨.bot, t⟩
  | .quizAccepted _ => ⟨.bot, quizSuccessMessage⟩
  | .quizFormatError => ⟨.bot, quizErrorMessage⟩

/-! ## Preset-question parsing and the generation phase
(`geminiService.ts`, `processDocumentWithAI`) -/

/-- The fixed fallback starter questions substituted when parsing the
structured questions response throws. -/
def fallbackPresetQuestions : List Json :=
  [ .str "What are the three most important key takeaways from this document?",
    .str "Explain the main concept in simple terms.",
    .str "What is something that might be easy to misunderstand from this text?",
    .str "Summarize the introduction.",
    .str "Create a 3-question quiz based on the main topic." ]

/-- JavaScript object-property lookup on a parsed JSON object: with
duplicate keys `JSON.parse` keeps the last occurrence. -/
def jsonLookup (fields : List (String × Json)) (key : String) : Option Json :=
  fields.reverse.lookup key

/-- `presetQuestions` extraction: inside one `try` block the code runs
`JSON.parse` and then tests `questionsJson.questions &&
Array.isArray(questionsJson.questions)`.  A parse exception lands in the
fallback, and so does a parsed `null` (property access on `null` throws a
`TypeError` caught by the same handler).  Any other parsed value without
a `questions` array yields the empty list, because an array value — even
an empty one — is truthy and everything else fails the test. -/
def parsePresetQuestions (text : String) : List Json :=
  match Json.parse text with
  | none => fallbackPresetQuestions
  | some .null => fallbackPresetQuestions
  | some (.obj fields) =>
    match jsonLookup fields "questions" with
    | some (.arr qs) => qs
    | _ => []
  | some _ => []

/-- The environment of one run of the generation phase: the results of
the two concurrent `generateContent` promises and of `chats.create`.
`Except.error` is a rejection/throw carrying the error message. -/
structure GenEnv where
  summaryResponseText : Except String String
  questionsResponseText : Except String String
  chatCreateResult : Except String Chat

structure ProcessResult where
  summary : String
  chat : Chat
  presetQuestions : List Json
deriving Repr

/-- `processDocumentWithAI` after extraction: both generation promises
are started, the chat session is created synchronously (a throw there
surfaces before the promises are awaited), then `Promise.all` joins the
two requests, and the preset questions are parsed with the fallback.
The function resolves only when both requests resolved. -/
def processDocumentWithAI (env : GenEnv) : Except String ProcessResult :=
  match env.chatCreateResult with
  | .error m => .error m
  | .ok chat =>
    match env.summaryResponseText with
    | .error m => .error m
    | .ok summary =>
      match env.questionsResponseText with
      | .error m => .error m
      | .ok qText => .ok ⟨summary, chat, parsePresetQuestions qText⟩

/-! ## Per-document processing traces (`App.tsx`) -/

inductive ProcessingState where
  | reading
  | summarizing
  | generating_questions
  | done
  | error
deriving DecidableEq, Repr

/-- Snapshot of the mutable fields of one `DocumentData` record. -/
structure DocSnapshot where
  processingState : ProcessingState
  summary : String := ""
  chat : Option Chat := none
  presetQuestions : Option (List Json) := none
  chatHistory : List ChatMessage := []
  errorMessage : Option String := none
deriving Repr

/-- Environment for `handleFileSelected` (the variant whose extraction
runs in the component): the PDF load/extract result and the generation
environment. -/
structure AppEnvA where
  extractResult : Except String String
  gen : GenEnv

/-- The successive states of the document during `handleFileSelected`:
created at `reading`; after extraction succeeds the state moves to
`summarizing`; after `processDocumentWithAI` resolves, one update sets
the summary, chat, preset questions, seeds `chatHistory` with the
greeting and sets `done`; any throw is caught and sets `error` with the
propagated message. -/
def traceFileSelected (env : AppEnvA) : List DocSnapshot :=
  let d0 : DocSnapshot := { processingState := .reading }
  d0 ::
    match env.extractResult with
    | .error m => [{ d0 with processingState := .error, errorMessage := some m }]
    | .ok _fullText =>
      let d1 := { d0 with processingState := .summarizing }
      d1 ::
        match processDocumentWithAI env.gen with
        | .error m => [{ d1 with processingState := .error, errorMessage := some m }]
        | .ok r =>
          [{ d1 with
              processingState := .done
              summary := r.summary
              chat := some r.chat
              presetQuestions := some r.presetQuestions
              chatHistory := [initialBotMessage] }]

/-- Environment for `handleFileChange` (the variant that also surfaces a
`generating_questions` state): PDF load, per-page text extraction, and
the generation environment. -/
structure AppEnvC where
  loadResult : Except String Unit
  extractResult : Except String String
  gen : GenEnv

/-- The successive states of the document during `handleFileChange`:
`reading` at creation; `summarizing` once the PDF document loaded;
`generating_questions` once the page text was extracted; `done` (with
all generated fields and the seeded greeting) once
`processDocumentWithAI` resolves; any throw is caught and sets `error`
with a `Failed to process: `-prefixed message. -/
def traceFileChange (env : AppEnvC) : List DocSnapshot :=
  let d0 : DocSnapshot := { processingState := .reading }
  d0 ::
    match env.loadResult with
    | .error m =>
      [{ d0 with processingState := .error, errorMessage := some ("Failed to process: " ++ m) }]
    | .ok _ =>
      let d1 := { d0 with processingState := .summarizing }
      d1 ::
        match env.extractResult with
        | .error m =>
          [{ d1 with processingState := .error, errorMessage := some ("Failed to process: " ++ m) }]
        | .ok _fullText =>
          let d2 := { d1 with processingState := .generating_questions }
          d2 ::
            match processDocumentWithAI env.gen with
            | .error m =>
              [{ d2 with processingState := .error, errorMessage := some ("Failed to process: " ++ m) }]
            | .ok r =>
              [{ d2 with
                  processingState := .done
                  summary := r.summary
                  chat := some r.chat
                  presetQuestions := some r.presetQuestions
                  chatHistory := [initialBotMessage] }]

/-! ## Boolean observers used by the invariant claims -/

def exceptOk {α : Type} (e : Except String α) : Bool :=
  match e with
  | .ok _ => true
  | .error _ => false

/-- Every `done` snapshot carries both completed generation results, a
chat session, preset questions and a non-empty history. -/
def doneComplete (gen : GenEnv) (t : List DocSnapshot) : Bool :=
  t.all fun snap =>
    snap.processingState != .done ||
      (exceptOk gen.summaryResponseText && exceptOk gen.questionsResponseText &&
        snap.chat.isSome && snap.presetQuestions.isSome && !snap.chatHistory.isEmpty)

def lastIsErrorWithMessage (t : List DocSnapshot) : Bool :=
  match t.getLast? with
  | some snap => snap.processingState == .error && snap.errorMessage.isSome
  | none => false

def stateRank : ProcessingState → Nat
  | .reading => 0
  | .summarizing => 1
  | .generating_questions => 2
  | .done => 3
  | .error => 4

/-- One legal transition: never out of `error`, and otherwise strictly
forward along `reading → summarizing → generating_questions → done`,
with `error` reachable from any of those. -/
def forwardStep (a b : ProcessingState) : Bool :=
  a != .error && (b == .error || stateRank a < stateRank b)

def forwardChain : List ProcessingState → Bool
  | [] => true
  | [_] => true
  | a :: b :: rest => forwardStep a b && forwardChain (b :: rest)

def statesOf (t : List DocSnapshot) : List ProcessingState :=
  t.map (·.processingState)

def doneNonEmptyHistory (t : List DocSnapshot) : Bool :=
  t.all fun snap => snap.processingState != .done || !snap.chatHistory.isEmpty

/-! ## PDF extraction routing (`geminiService.ts`, multimodal variant)

A PDF is abstracted by its per-page text content together with an
abstract rasteriser `render page scale`, which models the canvas
pipeline (`getViewport`/`render`/`toDataURL`); it returns the base64
JPEG payload, or `none` when the 2D context is unavailable (that page is
skipped by `continue`). -/

structure ImagePart where
  mimeType : String
  data : String
deriving DecidableEq, Repr

structure PdfFile where
  pageTexts : List String
  render : Nat → ℚ → Option String

/-- `extractTextFromPdf`: pages whose text is non-blank after trimming
are collected and joined with a blank-line separator. -/
def extractTextFromPdf (pdf : PdfFile) : String :=
  String.intercalate "\n\n" (pdf.pageTexts.filter fun t => 0 < (jsTrim t).length)

/-- The fixed render scale passed to `getViewport` when rasterising. -/
def renderScale : ℚ := 3 / 2

/-- `convertPdfToImages`: up to the first 5 pages are rasterised at the
fixed scale into `image/jpeg` inline parts; a page whose canvas context
is unavailable is skipped. -/
def convertPdfToImages (pdf : PdfFile) : List ImagePart :=
  (List.range (min pdf.pageTexts.length 5)).filterMap fun k =>
    (pdf.render (k + 1) renderScale).map fun d => ⟨"image/jpeg", d⟩

inductive ExtractRoute where
  | textOnly (text : String)
  | images (parts : List ImagePart)
deriving DecidableEq, Repr

/-- The routing decision for a PDF:
`if (documentText && documentText.trim().length >= 100)` the document is
processed as text only, otherwise the pages are converted to images. -/
def routePdfDocument (pdf : PdfFile) : ExtractRoute :=
  let documentText := extractTextFromPdf pdf
  if 0 < documentText.length ∧ 100 ≤ (jsTrim documentText).length then
    .textOnly documentText
  else
    .images (convertPdfToImages pdf)

/-! ## Quiz session state machine (`Quiz.tsx`) -/

structure QuizQuestion where
  questionText : String
  options : List String
  correctAnswerIndex : Int
  explanation : String
deriving DecidableEq, Inhabited, Repr

structure QuizData where
  title : String
  questions : List QuizQuestion
deriving DecidableEq, Inhabited, Repr

structure UserAnswer where
  questionIndex : Nat
  selectedOptionIndex : Nat
  isCorrect : Bool
deriving DecidableEq, Repr

/-- The component state of `Quiz`: question cursor, tentative selection,
recorded answers, submitted flag and results flag. -/
structure QuizState where
  currentQuestionIndex : Nat := 0
  selectedOption : Option Nat := none
  userAnswers : List UserAnswer := []
  isSubmitted : Bool := false
  showResults : Bool := false
deriving DecidableEq, Repr

/-- Option click: `!isSubmitted && setSelectedOption(index)`. -/
def selectOption (s : QuizState) (i : Nat) : QuizState :=
  if s.isSubmitted then s else { s with selectedOption := some i }

/-- `handleSubmit`: a no-op without a selection; otherwise marks the
question submitted and appends one `UserAnswer` whose `isCorrect`
compares the selection with `currentQuestion.correctAnswerIndex`.
(In the component, an out-of-range cursor would make
`data.questions[currentQuestionIndex]` undefined and throw; the model
reads a default question there, and the reachable states keep the cursor
in range.) -/
def handleSubmit (data : QuizData) (s : QuizState) : QuizState :=
  match s.selectedOption with
  | none => s
  | some sel =>
    let currentQuestion := data.questions.getD s.currentQuestionIndex default
    { s with
        isSubmitted := true
        userAnswers := s.userAnswers ++
          [⟨s.currentQuestionIndex, sel, (sel : Int) == currentQuestion.correctAnswerIndex⟩] }

/-- `handleNext`: clears submission and selection, then advances the
cursor, or shows the results after the last question. -/
def handleNext (data : QuizData) (s : QuizState) : QuizState :=
  let s := { s with isSubmitted := false, selectedOption := none }
  if s.currentQuestionIndex < data.questions.length - 1 then
    { s with currentQuestionIndex := s.currentQuestionIndex + 1 }
  else
    { s with showResults := true }

/-- `handleRestart`: every field back to its initial value. -/
def handleRestart (_s : QuizState) : QuizState := {}

/-- `QuizResults`: the displayed score is the number of recorded answers
with `isCorrect`. -/
def quizScore (answers : List UserAnswer) : Nat :=
  (answers.filter (·.isCorrect)).length

/-- JavaScript `Math.round` on a non-negative value: half-up rounding
(the component computes `Math.round((score / total) * 100)`; the model
reads the expression in exact arithmetic). -/
def jsRound (q : ℚ) : ℤ := ⌊q + 1 / 2⌋

def quizPercentage (score total : Nat) : ℤ :=
  jsRound ((score : ℚ) / (total : ℚ) * 100)

/-- Answering one question in full: click an option, submit, advance. -/
def playQuestion (data : QuizData) (s : QuizState) (sel : Nat) : QuizState :=
  handleNext data (handleSubmit data (selectOption s sel))

/-- A complete run of the quiz from the initial state, one selection per
question. -/
def runQuiz (data : QuizData) (sels : List Nat) : QuizState :=
  sels.foldl (playQuestion data) {}

/-- The answers a full run must record from question `i` on: one entry
per selection, grading it against its question. -/
def fullRunAnswersFrom (data : QuizData) : Nat → List Nat → List UserAnswer
  | _, [] => []
  | i, sel :: rest =>
    ⟨i, sel, (sel : Int) == (data.questions.getD i default).correctAnswerIndex⟩ ::
      fullRunAnswersFrom data (i + 1) rest

/-- The answers a full run must record: the `i`-th entry grades the
`i`-th selection against the `i`-th question. -/
def fullRunAnswers (data : QuizData) (sels : List Nat) : List UserAnswer :=
  fullRunAnswersFrom data 0 sels

/-! ## Streaming chat turns (`App.tsx`, `handleSendMessage` with
`sendMessageStream`) -/

/-- The chunk loop: `fullText` accumulates the chunk texts; the first
chunk pushes a new bot bubble, every later chunk overwrites the text of
the last message in place when that message is a bot message. -/
def sendMessageStreamFold :
    List ChatMessage → Bool → String → List String → List ChatMessage
  | hist, _, _, [] => hist
  | hist, firstChunk, fullText, chunkText :: restChunks =>
    let fullText := fullText ++ chunkText
    let hist :=
      if firstChunk then hist ++ [⟨.bot, fullText⟩]
      else
        match hist.getLast? with
        | some lastMsg =>
          if lastMsg.sender = .bot then hist.dropLast ++ [{ lastMsg with text := fullText }]
          else hist
        | none => hist
    sendMessageStreamFold hist false fullText restChunks

/-- One whole streamed bot turn applied to the chat history. -/
def streamTurn (hist : List ChatMessage) (chunks : List String) : List ChatMessage :=
  sendMessageStreamFold hist true "" chunks

/-- The accumulated `fullText` of a streamed turn. -/
def concatChunks (chunks : List String) : String :=
  chunks.foldl (fun a b => a ++ b) ""

/-! ## Markdown renderer (`MarkdownRenderer.tsx`, the `renderInline`
variant)

`renderInline` starts from the whole line as one string segment and runs
three passes, splitting the remaining string segments with
`/\*\*(.*?)\*\*/g`, `/\*(.*?)\*/g`, and `` /`(.*?)`/g `` in that order.
For fixed delimiter strings a lazy pair `delim (.*?) delim` matches the
leftmost delimiter occurrence paired with the next occurrence after it,
with the restriction that `.` does not cross a line terminator; when the
text between two occurrences contains a terminator the scan resumes one
character past the failed opening. -/

def strStartsWith (s p : String) : Bool := p.data.isPrefixOf s.data

def isLineTerminator (c : Char) : Bool := c = '\n' || c = '\r'

/-- Global lazy-pair scan for the delimiter `c :: ds`: alternating
unmatched text (`inl`) and capture groups (`inr`), exactly the odd/even
parts of the JavaScript `String.split` with a captured group.  Fuelled;
the callers pass `length + 1`, and every recursive call strictly shortens
the scanned text. -/
def scanPairs (c : Char) (ds : List Char) :
    Nat → List Char → List Char → List (List Char ⊕ List Char)
  | 0, acc, s => [.inl (acc ++ s)]
  | fuel + 1, acc, s =>
    match splitFirst (c :: ds) s with
    | none => [.inl (acc ++ s)]
    | some (pre, rest) =>
      match splitFirst (c :: ds) rest with
      | none => [.inl (acc ++ s)]
      | some (cap, rest2) =>
        if cap.any isLineTerminator then
          scanPairs c ds fuel (acc ++ pre ++ [c]) (ds ++ rest)
        else
          .inl (acc ++ pre) :: .inr cap :: scanPairs c ds fuel [] rest2

inductive Inline where
  | text (s : String)
  | bold (s : String)
  | em (s : String)
  | code (s : String)
deriving DecidableEq, Repr

/-- Rebuild the segment list from the split parts: non-matched parts are
kept only when non-empty (`else if (part)`), matched parts are wrapped
unconditionally. -/
def segApply (mk : List Char → Inline) (parts : List (List Char ⊕ List Char)) :
    List Inline :=
  parts.foldr
    (fun p acc =>
      match p with
      | .inl cs => if cs.isEmpty then acc else Inline.text ⟨cs⟩ :: acc
      | .inr cs => mk cs :: acc)
    []

/-- One `process(pattern, wrapper)` pass: only plain string segments are
split; a segment whose split has a single part is left unchanged. -/
def processPass (c : Char) (ds : List Char) (mk : List Char → Inline)
    (l : List Inline) : List Inline :=
  l.foldr
    (fun seg acc =>
      match seg with
      | Inline.text s =>
        let parts := scanPairs c ds (s.data.length + 1) [] s.data
        (if parts.length ≤ 1 then [Inline.text s] else segApply mk parts) ++ acc
      | other => other :: acc)
    []

/-- `renderInline`: empty input is returned as-is; otherwise the bold,
italic and code passes run in order. -/
def renderInline (s : String) : List Inline :=
  if s.isEmpty then [Inline.text s]
  else
    processPass '`' [] (fun cs => Inline.code ⟨cs⟩)
      (processPass '*' [] (fun cs => Inline.em ⟨cs⟩)
        (processPass '*' ['*'] (fun cs => Inline.bold ⟨cs⟩) [Inline.text s]))

/-! ### Block-level rendering -/

inductive LTag where
  | ul
  | ol
deriving DecidableEq, Repr

/-- `getIndentation`: the length of the leading `/^\s*/` match. -/
def getIndentation (line : String) : Nat :=
  (line.data.takeWhile isJsSpace).length

def isAsciiLetter (c : Char) : Bool :=
  ('a' ≤ c && c ≤ 'z') || ('A' ≤ c && c ≤ 'Z')

/-- `getListItem`: `* `/`- ` bullets, `\d+\.\s` ordered items, and
`[a-z]\.\s` quiz-style options (kept whole and styled as a bullet). -/
def getListItem (line : String) : Option (LTag × String) :=
  let trimmed := jsTrim line
  if strStartsWith trimmed "* " || strStartsWith trimmed "- " then
    some (.ul, ⟨trimmed.data.drop 2⟩)
  else
    match trimmed.data with
    | [] => none
    | ch :: rest =>
      if isDigitChar ch then
        let digits := (ch :: rest).takeWhile isDigitChar
        match (ch :: rest).drop digits.length with
        | '.' :: w :: tail =>
          if isJsSpace w then some (.ol, ⟨tail⟩) else none
        | _ => none
      else if isAsciiLetter ch then
        match rest with
        | '.' :: w :: _tail =>
          if isJsSpace w then some (.ul, trimmed) else none
        | _ => none
      else none

inductive Block where
  | h1 (content : List Inline)
  | h2 (content : List Inline)
  | h3 (content : List Inline)
  | blockquote (paras : List (List Inline))
  | codeBlock (code : String)
  | list (tag : LTag) (items : List (List Inline × List Block))
  | para (content : List Inline)

/-- `React.cloneElement` of the last list item with the nested list
appended to its children. -/
def attachToLastItem (items : List (List Inline × List Block)) (nested : Block) :
    List (List Inline × List Block) :=
  match items.getLast? with
  | none => items
  | some lastItem => items.dropLast ++ [(lastItem.1, lastItem.2 ++ [nested])]

/-- The `renderList` item loop of the block renderer, at one indentation
level: stops below the level or at a non-item; opens a nested list on a
deeper indentation, attaching it to the previous sibling when one exists
(and discarding it otherwise, as the component does); pushes an item on
an equal indentation when the marker type fits. -/
def collectItems (tag : LTag) (initialIndent : Nat) :
    Nat → List (List Inline × List Block) → List String →
      List (List Inline × List Block) × List String
  | 0, acc, lines => (acc, lines)
  | _fuel + 1, acc, [] => (acc, [])
  | fuel + 1, acc, l :: rest =>
    let indent := getIndentation l
    match getListItem l with
    | none => (acc, l :: rest)
    | some (t, content) =>
      if indent < initialIndent then (acc, l :: rest)
      else if initialIndent < indent then
        let nestedResult := collectItems t indent fuel [(renderInline content, [])] rest
        let acc' :=
          if acc.isEmpty then acc
          else attachToLastItem acc (Block.list t nestedResult.1)
        collectItems tag initialIndent fuel acc' nestedResult.2
      else if t == tag || tag == LTag.ol then
        collectItems tag initialIndent fuel (acc ++ [(renderInline content, [])]) rest
      else (acc, l :: rest)

/-- Split on a separator character, keeping empty pieces (JavaScript
`String.split`). -/
def splitOnChar (sep : Char) : List Char → List (List Char)
  | [] => [[]]
  | ch :: cs =>
    match splitOnChar sep cs with
    | h :: t => if ch = sep then [] :: h :: t else (ch :: h) :: t
    | [] => [[ch]]

def splitLines (s : String) : List String :=
  (splitOnChar '\n' s.data).map fun cs => ⟨cs⟩

def fenceMarker : String := "```"

/-- The main `while` loop of the block renderer. -/
def renderBlocks : Nat → List String → List Block
  | 0, _ => []
  | _fuel + 1, [] => []
  | fuel + 1, l :: rest =>
    let trimmedLine := jsTrim l
    if strStartsWith trimmedLine "# " then
      Block.h1 (renderInline ⟨trimmedLine.data.drop 2⟩) :: renderBlocks fuel rest
    else if strStartsWith trimmedLine "## " then
      Block.h2 (renderInline ⟨trimmedLine.data.drop 3⟩) :: renderBlocks fuel rest
    else if strStartsWith trimmedLine "### " then
      Block.h3 (renderInline ⟨trimmedLine.data.drop 4⟩) :: renderBlocks fuel rest
    else if strStartsWith trimmedLine "> " then
      let isQuote : String → Bool := fun x => strStartsWith (jsTrim x) "> "
      let quoteLines := (l :: rest).takeWhile isQuote
      Block.blockquote (quoteLines.map fun q => renderInline ⟨(jsTrim q).data.drop 2⟩) ::
        renderBlocks fuel ((l :: rest).dropWhile isQuote)
    else if strStartsWith trimmedLine fenceMarker then
      let codeLines := rest.takeWhile fun x => !(strStartsWith (jsTrim x) fenceMarker)
      Block.codeBlock (String.intercalate "\n" codeLines) ::
        renderBlocks fuel (rest.drop (codeLines.length + 1))
    else
      match getListItem l with
      | some (t, _) =>
        let result := collectItems t (getIndentation l) (rest.length + 1) [] (l :: rest)
        Block.list t result.1 :: renderBlocks fuel result.2
      | none =>
        if trimmedLine.isEmpty then renderBlocks fuel rest
        else Block.para (renderInline trimmedLine) :: renderBlocks fuel rest

/-- `MarkdownRenderer`: split into lines and run the block loop. -/
def MarkdownRenderer (content : String) : List Block :=
  let lines := splitLines content
  renderBlocks (lines.length + 1) lines

/-! ## Helper lemmas -/

theorem jsTrimList_length_le (cs : List Char) :
    (jsTrimList cs).length ≤ cs.length := by
  unfold jsTrimList
  calc (((cs.dropWhile isJsSpace).reverse.dropWhile isJsSpace).reverse).length
      = ((cs.dropWhile isJsSpace).reverse.dropWhile isJsSpace).length := by
        exact List.length_reverse _
    _ ≤ (cs.dropWhile isJsSpace).reverse.length := (List.dropWhile_sublist _).length_le
    _ = (cs.dropWhile isJsSpace).length := List.length_reverse _
    _ ≤ cs.length := (List.dropWhile_sublist _).length_le

theorem jsTrim_length_le (s : String) : (jsTrim s).length ≤ s.length :=
  jsTrimList_length_le s.data

/-! ## Claims -/

/-- C2: in `handleFileSelected`, every `done` snapshot requires both the
summary request and the preset-question request to have resolved and
carries a chat session, preset questions and a non-empty seeded history
(no partial result is surfaced as `done`), and the document ends in
`error` with an error message exactly when extraction, generation or
chat-session setup failed. -/
theorem claim_C2 (env : AppEnvA) :
    doneComplete env.gen (traceFileSelected env) = true ∧
    ((!exceptOk env.extractResult || !exceptOk (processDocumentWithAI env.gen)) =
      lastIsErrorWithMessage (traceFileSelected env)) := by
  obtain ⟨ex, s, q, c⟩ := env
  cases ex <;> cases s <;> cases q <;> cases c <;>
    simp [traceFileSelected, processDocumentWithAI, doneComplete, exceptOk,
      lastIsErrorWithMessage, List.getLast?]

/-- C3: in both `handleFileSelected` and `handleFileChange`, the
processing state only moves forward along
`reading → summarizing → generating_questions → done` (possibly skipping
stages), `error` is terminal and reachable after any non-terminal stage,
and every `done` snapshot has a non-empty chat history. -/
theorem claim_C3 (envA : AppEnvA) (envC : AppEnvC) :
    forwardChain (statesOf (traceFileSelected envA)) = true ∧
    doneNonEmptyHistory (traceFileSelected envA) = true ∧
    forwardChain (statesOf (traceFileChange envC)) = true ∧
    doneNonEmptyHistory (traceFileChange envC) = true ∧
    (∃ e : AppEnvC, statesOf (traceFileChange e) = [.reading, .error]) ∧
    (∃ e : AppEnvC, statesOf (traceFileChange e) = [.reading, .summarizing, .error]) ∧
    (∃ e : AppEnvC, statesOf (traceFileChange e) =
      [.reading, .summarizing, .generating_questions, .error]) := by
  refine ⟨?_, ?_, ?_, ?_, ?_, ?_, ?_⟩
  · obtain ⟨ex, s, q, c⟩ := envA
    cases ex <;> cases s <;> cases q <;> cases c <;>
      simp [traceFileSelected, processDocumentWithAI, statesOf, forwardChain,
        forwardStep, stateRank, initialBotMessage]
  · obtain ⟨ex, s, q, c⟩ := envA
    cases ex <;> cases s <;> cases q <;> cases c <;>
      simp [traceFileSelected, processDocumentWithAI, doneNonEmptyHistory,
        initialBotMessage]
  · obtain ⟨ld, ex, s, q, c⟩ := envC
    cases ld <;> cases ex <;> cases s <;> cases q <;> cases c <;>
      simp [traceFileChange, processDocumentWithAI, statesOf, forwardChain,
        forwardStep, stateRank]
  · obtain ⟨ld, ex, s, q, c⟩ := envC
    cases ld <;> cases ex <;> cases s <;> cases q <;> cases c <;>
      simp [traceFileChange, processDocumentWithAI, doneNonEmptyHistory,
        initialBotMessage]
  · exact ⟨⟨.error "boom", .ok "", ⟨.ok "", .ok "", .ok {}⟩⟩, rfl⟩
  · exact ⟨⟨.ok (), .error "boom", ⟨.ok "", .ok "", .ok {}⟩⟩, rfl⟩
  · exact ⟨⟨.ok (), .ok "", ⟨.error "boom", .ok "", .ok {}⟩⟩, rfl⟩

/-- C7: when the preset-question response resolves with text that is not
parseable JSON, the fixed 5-item fallback list is substituted verbatim
and the document still reaches `done` (with the seeded greeting); the
generation failure is recovered locally, not fatal. -/
theorem claim_C7 (fullText summaryText qText : String) (chat : Chat)
    (hparse : Json.parse qText = none) :
    traceFileSelected ⟨.ok fullText, ⟨.ok summaryText, .ok qText, .ok chat⟩⟩ =
      [ { processingState := .reading },
        { processingState := .summarizing },
        { processingState := .done
          summary := summaryText
          chat := some chat
          presetQuestions := some fallbackPresetQuestions
          chatHistory := [initialBotMessage] } ] := by
  simp [traceFileSelected, processDocumentWithAI, parsePresetQuestions, hparse]

/-- Witness for C7 at a concrete unparseable questions response. -/
theorem claim_C7_witness :
    traceFileSelected ⟨.ok "doc", ⟨.ok "sum", .ok "oops not json", .ok {}⟩⟩ =
      [ { processingState := .reading },
        { processingState := .summarizing },
        { processingState := .done
          summary := "sum"
          chat := some {}
          presetQuestions := some fallbackPresetQuestions
          chatHistory := [initialBotMessage] } ] :=
  claim_C7 "doc" "sum" "oops not json" {} (by rfl)

/-- C1 counterexample: the response
`<quiz_data>{"title":"T","questions":[]}</quiz_data>` carries a payload
with an empty `questions` array, which the claim says must be rejected;
the handler nevertheless accepts it and stores a quiz value
(`handleSendMessage` runs `setCurrentQuiz(JSON.parse(quizMatch[1]))`
with no shape validation). -/
theorem claim_C1_counterexample :
    handleBotResponse "<quiz_data>\x7b\"title\":\"T\",\"questions\":[]\x7d</quiz_data>" =
      .quizAccepted (Json.obj [("title", .str "T"), ("questions", .arr [])]) ∧
    turnQuiz (handleBotResponse
        "<quiz_data>\x7b\"title\":\"T\",\"questions\":[]\x7d</quiz_data>") =
      some (Json.obj [("title", .str "T"), ("questions", .arr [])]) :=
  ⟨rfl, rfl⟩

/-- C1 amended: for every chat response with a `<quiz_data>` block whose
non-empty enclosed substring parses as JSON, the handler accepts the
parsed value as the quiz with no validation at all — neither that
`questions` is non-empty nor that any `correctAnswerIndex` is in range;
only a JSON parse failure (or an empty capture) avoids producing a quiz
value. -/
theorem claim_C1_amended (text payload : String) (j : Json)
    (hcap : quizCapture text = some payload)
    (hne : payload.isEmpty = false)
    (hparse : Json.parse payload = some j) :
    handleBotResponse text = .quizAccepted j ∧
    turnQuiz (handleBotResponse text) = some j := by
  simp [handleBotResponse, hcap, hne, hparse, turnQuiz]

/-- Witness for the amended C1 at a payload whose only question has
`correctAnswerIndex = 5` with two options — out of range, yet accepted. -/
theorem claim_C1_amended_witness :
    handleBotResponse
        "<quiz_data>\x7b\"questions\":[\x7b\"options\":[\"a\",\"b\"],\"correctAnswerIndex\":5\x7d]\x7d</quiz_data>" =
      .quizAccepted
        (Json.obj [("questions",
          .arr [Json.obj [("options", .arr [.str "a", .str "b"]),
                          ("correctAnswerIndex", .num 5 0)]])]) ∧
    turnQuiz (handleBotResponse
        "<quiz_data>\x7b\"questions\":[\x7b\"options\":[\"a\",\"b\"],\"correctAnswerIndex\":5\x7d]\x7d</quiz_data>") =
      some (Json.obj [("questions",
          .arr [Json.obj [("options", .arr [.str "a", .str "b"]),
                          ("correctAnswerIndex", .num 5 0)]])]) :=
  claim_C1_amended _ "\x7b\"questions\":[\x7b\"options\":[\"a\",\"b\"],\"correctAnswerIndex\":5\x7d]\x7d" _
    rfl rfl rfl

/-- C4 counterexample: the response `<quiz_data></quiz_data>` contains a
quiz block whose enclosed substring `""` is not valid JSON, yet the
handler does not produce the apology: `quizMatch[1]` is the empty string,
which is falsy, so `if (quizMatch && quizMatch[1])` falls through to the
ordinary branch and the whole response text is appended as a plain bot
message. -/
theorem claim_C4_counterexample :
    quizCapture "<quiz_data></quiz_data>" = some "" ∧
    Json.parse "" = none ∧
    handleBotResponse "<quiz_data></quiz_data>" =
      .plainBot "<quiz_data></quiz_data>" ∧
    turnBotMessage (handleBotResponse "<quiz_data></quiz_data>") =
      ⟨.bot, "<quiz_data></quiz_data>"⟩ ∧
    turnBotMessage (handleBotResponse "<quiz_data></quiz_data>") ≠
      ⟨.bot, quizErrorMessage⟩ :=
  ⟨rfl, rfl, rfl, rfl, by decide⟩

/-- C4 amended: a `<quiz_data>` block whose enclosed substring is
non-empty and not valid JSON yields the fixed apology bot message,
leaves the current quiz unset and does not crash; the outcome is a
different constructor from the no-quiz case, in which the response text
itself is appended as an ordinary bot message — and a block with an
empty enclosed substring is treated as that no-quiz case (the empty
capture is falsy), not as a format error. -/
theorem claim_C4_amended (text payload : String)
    (hcap : quizCapture text = some payload)
    (hne : payload.isEmpty = false)
    (hparse : Json.parse payload = none) :
    handleBotResponse text = .quizFormatError ∧
    turnQuiz (handleBotResponse text) = none ∧
    turnBotMessage (handleBotResponse text) = ⟨.bot, quizErrorMessage⟩ ∧
    (∀ t, QuizTurnOutcome.quizFormatError ≠ QuizTurnOutcome.plainBot t) ∧
    (∀ t, quizCapture t = none →
      handleBotResponse t = .plainBot t ∧
      turnBotMessage (handleBotResponse t) = ⟨.bot, t⟩) ∧
    (∀ t, quizCapture t = some "" → handleBotResponse t = .plainBot t) := by
  refine ⟨?_, ?_, ?_, ?_, ?_, ?_⟩
  · simp [handleBotResponse, hcap, hne, hparse]
  · simp [handleBotResponse, hcap, hne, hparse, turnQuiz]
  · simp [handleBotResponse, hcap, hne, hparse, turnBotMessage]
  · intro t h
    exact QuizTurnOutcome.noConfusion h
  · intro t h
    simp [handleBotResponse, h, turnBotMessage]
  · intro t h
    simp only [handleBotResponse, h]
    rfl

/-- Witness for the amended C4 at the scenario input
`<quiz_data>{not valid json</quiz_data>`. -/
theorem claim_C4_amended_witness :
    handleBotResponse "Sure! <quiz_data>\x7bnot valid json</quiz_data>" =
      .quizFormatError ∧
    turnQuiz (handleBotResponse "Sure! <quiz_data>\x7bnot valid json</quiz_data>") = none ∧
    turnBotMessage (handleBotResponse "Sure! <quiz_data>\x7bnot valid json</quiz_data>") =
      ⟨.bot, quizErrorMessage⟩ ∧
    (∀ t, QuizTurnOutcome.quizFormatError ≠ QuizTurnOutcome.plainBot t) ∧
    (∀ t, quizCapture t = none →
      handleBotResponse t = .plainBot t ∧
      turnBotMessage (handleBotResponse t) = ⟨.bot, t⟩) ∧
    (∀ t, quizCapture t = some "" → handleBotResponse t = .plainBot t) :=
  claim_C4_amended "Sure! <quiz_data>\x7bnot valid json</quiz_data>" "\x7bnot valid json"
    rfl rfl rfl

/-- Does the parsed questions response expose a `questions` property that
`Array.isArray` accepts? -/
def hasQuestionsArray (j : Json) : Bool :=
  match j with
  | .obj fields =>
    match jsonLookup fields "questions" with
    | some (.arr _) => true
    | _ => false
  | _ => false

/-- C10 counterexample: `"null"` is valid JSON without a `questions`
array, yet the code substitutes the fallback list (property access on
the parsed `null` throws a `TypeError` inside the same `try` block), so
`presetQuestions` is not the empty list and the fallback is applied for
a response on which `JSON.parse` does not throw. -/
theorem claim_C10_counterexample :
    Json.parse "null" = some Json.null ∧
    hasQuestionsArray Json.null = false ∧
    parsePresetQuestions "null" = fallbackPresetQuestions ∧
    parsePresetQuestions "null" ≠ [] := by
  refine ⟨rfl, rfl, rfl, ?_⟩
  rw [show parsePresetQuestions "null" = fallbackPresetQuestions from rfl]
  simp [fallbackPresetQuestions]

/-- C10 amended: for a questions response that parses to any JSON value
other than `null` and does not expose a `questions` array property,
`presetQuestions` becomes the empty list, not the fallback; the fallback
is applied exactly when `JSON.parse` throws or the parsed value is
`null` (whose property access throws inside the same handler). -/
theorem claim_C10_amended (s : String) (j : Json)
    (hp : Json.parse s = some j) (hnull : j ≠ Json.null)
    (hq : hasQuestionsArray j = false) :
    parsePresetQuestions s = [] ∧
    (∀ t, Json.parse t = none → parsePresetQuestions t = fallbackPresetQuestions) ∧
    (∀ t, Json.parse t = some Json.null →
      parsePresetQuestions t = fallbackPresetQuestions) := by
  refine ⟨?_, ?_, ?_⟩
  · cases j with
    | null => exact absurd rfl hnull
    | obj fields =>
      simp only [hasQuestionsArray] at hq
      simp only [parsePresetQuestions, hp]
      split at hq
      · exact absurd hq (by simp)
      · next heq => simp [heq]
    | bool b => simp [parsePresetQuestions, hp]
    | num m e => simp [parsePresetQuestions, hp]
    | str t => simp [parsePresetQuestions, hp]
    | arr xs => simp [parsePresetQuestions, hp]
  · intro t h
    simp [parsePresetQuestions, h]
  · intro t h
    simp [parsePresetQuestions, h]

/-- Witness for the amended C10 at the object `{"items":[]}`: valid
JSON, no `questions` array, empty preset list. -/
theorem claim_C10_amended_witness :
    parsePresetQuestions "\x7b\"items\":[]\x7d" = [] ∧
    (∀ t, Json.parse t = none → parsePresetQuestions t = fallbackPresetQuestions) ∧
    (∀ t, Json.parse t = some Json.null →
      parsePresetQuestions t = fallbackPresetQuestions) :=
  claim_C10_amended "\x7b\"items\":[]\x7d" (Json.obj [("items", Json.arr [])])
    rfl (fun h => Json.noConfusion h) rfl

/-- C5: a PDF whose extracted text trims to fewer than 100 characters is
routed to image extraction — at most the first five pages rasterised by
the fixed-scale `image/jpeg` pipeline — while a PDF whose trimmed text
has at least 100 characters is processed as text only, with no page
images produced. -/
theorem claim_C5 (pdf : PdfFile) :
    ((jsTrim (extractTextFromPdf pdf)).length < 100 →
      routePdfDocument pdf = .images (convertPdfToImages pdf) ∧
      convertPdfToImages pdf =
        (List.range (min pdf.pageTexts.length 5)).filterMap
          (fun k => (pdf.render (k + 1) renderScale).map fun d => ⟨"image/jpeg", d⟩) ∧
      (convertPdfToImages pdf).length ≤ 5) ∧
    (100 ≤ (jsTrim (extractTextFromPdf pdf)).length →
      routePdfDocument pdf = .textOnly (extractTextFromPdf pdf)) := by
  constructor
  · intro hlt
    refine ⟨?_, rfl, ?_⟩
    · rw [routePdfDocument]
      rw [if_neg]
      intro hcond
      exact absurd hcond.2 (by omega)
    · calc (convertPdfToImages pdf).length
          ≤ (List.range (min pdf.pageTexts.length 5)).length :=
            List.length_filterMap_le _ _
        _ = min pdf.pageTexts.length 5 := List.length_range _
        _ ≤ 5 := min_le_right _ _
  · intro hge
    rw [routePdfDocument]
    rw [if_pos]
    refine ⟨?_, hge⟩
    have h1 : 100 ≤ (extractTextFromPdf pdf).length :=
      le_trans hge (jsTrim_length_le _)
    omega

/-- Witness for C5: a one-page low-text PDF routes to images (one part),
and a PDF with 100 characters of text routes to text-only. -/
theorem claim_C5_witness :
    routePdfDocument ⟨["hi"], fun _ _ => some "imgdata"⟩ =
      .images (convertPdfToImages ⟨["hi"], fun _ _ => some "imgdata"⟩) ∧
    (convertPdfToImages ⟨["hi"], fun _ _ => some "imgdata"⟩).length ≤ 5 ∧
    routePdfDocument
        ⟨["aaaaaaaaaaaaaaaaaaaaaaaaaaaaaaaaaaaaaaaaaaaaaaaaaaaaaaaaaaaaaaaaaaaaaaaaaaaaaaaaaaaaaaaaaaaaaaaaaaaa"],
          fun _ _ => none⟩ =
      .textOnly (extractTextFromPdf
        ⟨["aaaaaaaaaaaaaaaaaaaaaaaaaaaaaaaaaaaaaaaaaaaaaaaaaaaaaaaaaaaaaaaaaaaaaaaaaaaaaaaaaaaaaaaaaaaaaaaaaaaa"],
          fun _ _ => none⟩) :=
  ⟨((claim_C5 ⟨["hi"], fun _ _ => some "imgdata"⟩).1 (by decide)).1,
   ((claim_C5 ⟨["hi"], fun _ _ => some "imgdata"⟩).1 (by decide)).2.2,
   (claim_C5 _).2 (by decide)⟩

/-- C8: a streamed chat turn folds every chunk into the same in-progress
bot message: with no chunks the history is unchanged, and otherwise the
whole turn appends exactly one bot message holding the accumulated text,
so a streamed turn never adds more than one message. -/
theorem claim_C8 (hist : List ChatMessage) (chunks : List String) :
    (chunks = [] → streamTurn hist chunks = hist) ∧
    (chunks ≠ [] →
      streamTurn hist chunks = hist ++ [⟨.bot, concatChunks chunks⟩]) ∧
    (streamTurn hist chunks).length ≤ hist.length + 1 := by
  have aux : ∀ (cs : List String) (h : List ChatMessage) (t : String),
      sendMessageStreamFold (h ++ [⟨.bot, t⟩]) false t cs =
        h ++ [⟨.bot, cs.foldl (fun a b => a ++ b) t⟩] := by
    intro cs
    induction cs with
    | nil => intro h t; simp [sendMessageStreamFold]
    | cons c rest ih =>
      intro h t
      rw [sendMessageStreamFold]
      simp only [List.getLast?_concat]
      simp only [if_pos rfl, List.dropLast_concat]
      exact ih h (t ++ c)
  have main : chunks ≠ [] →
      streamTurn hist chunks = hist ++ [⟨.bot, concatChunks chunks⟩] := by
    intro hne
    match chunks with
    | [] => exact absurd rfl hne
    | c :: rest =>
      have step : streamTurn hist (c :: rest) =
          sendMessageStreamFold (hist ++ [⟨.bot, c⟩]) false c rest := rfl
      rw [step, aux rest hist c]
      rfl
  refine ⟨?_, main, ?_⟩
  · intro h
    subst h
    rfl
  · match chunks with
    | [] => simp [streamTurn, sendMessageStreamFold]
    | c :: rest =>
      rw [main (by simp)]
      simp

/-- Witness for C8: streaming `["He", "llo"]` onto a one-message history
appends exactly the single accumulated bot message. -/
theorem claim_C8_witness :
    streamTurn [⟨.user, "hi"⟩] ["He", "llo"] =
      [⟨.user, "hi"⟩] ++ [⟨.bot, concatChunks ["He", "llo"]⟩] :=
  (claim_C8 [⟨.user, "hi"⟩] ["He", "llo"]).2.1 (by simp)

/-- A full quiz run, starting at question `i` with answers `acc` already
recorded, grades each remaining selection and ends on the results
screen. -/
theorem runQuiz_fold (data : QuizData) :
    ∀ (sels : List Nat) (i : Nat) (acc : List UserAnswer),
      i + sels.length = data.questions.length →
      sels ≠ [] →
      List.foldl (playQuestion data) ⟨i, none, acc, false, false⟩ sels =
        ⟨data.questions.length - 1, none,
          acc ++ fullRunAnswersFrom data i sels, false, true⟩ := by
  intro sels
  induction sels with
  | nil => intro i acc _ hne; exact absurd rfl hne
  | cons sel rest ih =>
    intro i acc hlen _hne
    have hstep : playQuestion data ⟨i, none, acc, false, false⟩ sel =
        handleNext data
          ⟨i, some sel,
            acc ++ [⟨i, sel,
              ((sel : Int) == (data.questions.getD i default).correctAnswerIndex)⟩],
            true, false⟩ := by
      simp [playQuestion, selectOption, handleSubmit]
    rw [List.foldl_cons, hstep]
    by_cases hrest : rest = []
    · subst hrest
      simp only [List.length_cons, List.length_nil] at hlen
      have hi : i = data.questions.length - 1 := by omega
      have hnotlt : ¬ i < data.questions.length - 1 := by omega
      rw [handleNext]
      simp only [if_neg hnotlt]
      simp [hi, fullRunAnswersFrom]
    · have hlt : i < data.questions.length - 1 := by
        have : 1 ≤ rest.length := List.length_pos.mpr hrest
        simp only [List.length_cons] at hlen
        omega
      rw [handleNext]
      simp only [if_pos hlt]
      have := ih (i + 1)
        (acc ++ [⟨i, sel,
          ((sel : Int) == (data.questions.getD i default).correctAnswerIndex)⟩])
        (by simp only [List.length_cons] at hlen; omega) hrest
      rw [this]
      simp [fullRunAnswersFrom]

/-- The score of the recorded answers from question `i` on counts the
correctly graded selections. -/
theorem quizScore_fullRunAnswersFrom (data : QuizData) :
    ∀ (sels : List Nat) (i : Nat),
      quizScore (fullRunAnswersFrom data i sels) =
        ((List.enumFrom i sels).filter (fun p =>
          ((p.2 : Int) ==
            (data.questions.getD p.1 default).correctAnswerIndex))).length := by
  intro sels
  induction sels with
  | nil => intro i; rfl
  | cons sel rest ih =>
    intro i
    simp only [fullRunAnswersFrom, quizScore, List.enumFrom_cons, List.filter_cons]
    by_cases h :
        ((sel : Int) == (data.questions.getD i default).correctAnswerIndex) = true
    · simp only [h, if_pos]
      simp only [List.length_cons]
      have := ih (i + 1)
      simp only [quizScore] at this
      omega
    · simp only [h]
      simp only [Bool.false_eq_true, if_neg, ite_false]
      have := ih (i + 1)
      simp only [quizScore] at this
      exact this

/-- C6: `submit()` with no selected option is a no-op; with a selection
it appends exactly one `UserAnswer` whose `isCorrect` holds iff the
selection equals the current question's `correctAnswerIndex`; and a full
run records one graded answer per question, ends on the results screen,
and the displayed score is the count of `isCorrect` entries — the number
of correctly selected questions — with
`percentage = round(score / total × 100)`. -/
theorem claim_C6 (data : QuizData) (s : QuizState) (sels : List Nat) :
    (s.selectedOption = none → handleSubmit data s = s) ∧
    (∀ sel, s.selectedOption = some sel →
      handleSubmit data s =
        { s with
            isSubmitted := true
            userAnswers := s.userAnswers ++
              [⟨s.currentQuestionIndex, sel,
                ((sel : Int) ==
                  (data.questions.getD s.currentQuestionIndex default).correctAnswerIndex)⟩] }) ∧
    (sels ≠ [] → sels.length = data.questions.length →
      (runQuiz data sels).userAnswers = fullRunAnswers data sels ∧
      (runQuiz data sels).showResults = true ∧
      quizScore (runQuiz data sels).userAnswers =
        ((List.enumFrom 0 sels).filter (fun p =>
          ((p.2 : Int) ==
            (data.questions.getD p.1 default).correctAnswerIndex))).length ∧
      quizPercentage (quizScore (runQuiz data sels).userAnswers) data.questions.length =
        jsRound ((quizScore (runQuiz data sels).userAnswers : ℚ) /
          (data.questions.length : ℚ) * 100)) := by
  refine ⟨?_, ?_, ?_⟩
  · intro h
    simp [handleSubmit, h]
  · intro sel h
    simp [handleSubmit, h]
  · intro hne hlen
    have hrun : runQuiz data sels =
        ⟨data.questions.length - 1, none,
          [] ++ fullRunAnswersFrom data 0 sels, false, true⟩ :=
      runQuiz_fold data sels 0 [] (by omega) hne
    have hanswers : (runQuiz data sels).userAnswers = fullRunAnswers data sels := by
      rw [hrun]
      simp [fullRunAnswers]
    refine ⟨hanswers, by rw [hrun], ?_, rfl⟩
    rw [hanswers]
    exact quizScore_fullRunAnswersFrom data sels 0

/-- Witness for C6: no-selection submit is a no-op; submitting option 1
against a question whose correct index is 1 records a correct answer;
the scenario-B one-question run scores 1 of 1. -/
theorem claim_C6_witness :
    (handleSubmit ⟨"T", [⟨"Q", ["a", "b"], 1, "E"⟩]⟩ {} = {}) ∧
    (handleSubmit ⟨"T", [⟨"Q", ["a", "b"], 1, "E"⟩]⟩
        { selectedOption := some 1 } =
      { selectedOption := some 1
        isSubmitted := true
        userAnswers := [⟨0, 1, ((1 : Int) ==
          ((⟨"T", [⟨"Q", ["a", "b"], 1, "E"⟩]⟩ : QuizData).questions.getD 0
            default).correctAnswerIndex)⟩] }) ∧
    (runQuiz ⟨"T", [⟨"Q", ["a", "b"], 1, "E"⟩]⟩ [1]).userAnswers =
      fullRunAnswers ⟨"T", [⟨"Q", ["a", "b"], 1, "E"⟩]⟩ [1] ∧
    (runQuiz ⟨"T", [⟨"Q", ["a", "b"], 1, "E"⟩]⟩ [1]).showResults = true :=
  ⟨(claim_C6 ⟨"T", [⟨"Q", ["a", "b"], 1, "E"⟩]⟩ {} []).1 rfl,
   (claim_C6 ⟨"T", [⟨"Q", ["a", "b"], 1, "E"⟩]⟩ { selectedOption := some 1 } []).2.1 1 rfl,
   ((claim_C6 ⟨"T", [⟨"Q", ["a", "b"], 1, "E"⟩]⟩ {} [1]).2.2 (by simp) (by decide)).1,
   ((claim_C6 ⟨"T", [⟨"Q", ["a", "b"], 1, "E"⟩]⟩ {} [1]).2.2 (by simp) (by decide)).2.1⟩

/-- A delimiter starting with a character absent from the text never
occurs in it. -/
theorem splitFirst_cons_of_not_mem {c : Char} (ds : List Char) :
    ∀ cs : List Char, c ∉ cs → splitFirst (c :: ds) cs = none := by
  intro cs
  induction cs with
  | nil => intro _; simp [splitFirst]
  | cons x xs ih =>
    intro h
    simp only [List.mem_cons, not_or] at h
    simp only [splitFirst]
    rw [if_neg, ih h.2]
    · rfl
    · simp only [List.isPrefixOf]
      intro hpre
      have : c = x := by
        have := hpre
        simp only [Bool.and_eq_true, beq_iff_eq] at this
        exact this.1
      exact h.1 this

/-- A scan for a delimiter whose first character is absent finds
nothing. -/
theorem scanPairs_of_not_mem (c : Char) (ds : List Char) (fuel : Nat)
    (s : List Char) (h : c ∉ s) :
    scanPairs c ds (fuel + 1) [] s = [.inl s] := by
  rw [scanPairs, splitFirst_cons_of_not_mem ds s h]
  simp

/-- A single text segment containing no delimiter character passes a
`process` pass unchanged. -/
theorem processPass_single_of_not_mem (c : Char) (ds : List Char)
    (mk : List Char → Inline) (s : String) (h : c ∉ s.data) :
    processPass c ds mk [Inline.text s] = [Inline.text s] := by
  simp only [processPass, List.foldr]
  rw [scanPairs_of_not_mem c ds s.data.length s.data h]
  simp

/-- `renderInline` leaves marker-free text as a single literal segment. -/
theorem renderInline_no_markers (s : String)
    (h : ∀ ch ∈ s.data, ch ≠ '*' ∧ ch ≠ '`') :
    renderInline s = [Inline.text s] := by
  have hstar : '*' ∉ s.data := fun hm => (h _ hm).1 rfl
  have htick : '`' ∉ s.data := fun hm => (h _ hm).2 rfl
  by_cases hemp : s.isEmpty
  · simp [renderInline, hemp]
  · rw [renderInline, if_neg hemp]
    rw [processPass_single_of_not_mem _ _ _ _ hstar]
    rw [processPass_single_of_not_mem _ _ _ _ hstar]
    rw [processPass_single_of_not_mem _ _ _ _ htick]

/-- The item loop only ever consumes lines: its remainder is no longer
than its input. -/
theorem collectItems_snd_length_le :
    ∀ (fuel : Nat) (tag : LTag) (ind : Nat)
      (acc : List (List Inline × List Block)) (ls : List String),
      ((collectItems tag ind fuel acc ls).2).length ≤ ls.length := by
  intro fuel
  induction fuel with
  | zero => intro tag ind acc ls; simp [collectItems]
  | succ fuel ih =>
    intro tag ind acc ls
    match ls with
    | [] => simp [collectItems]
    | l :: rest =>
      simp only [collectItems]
      cases hgi : getListItem l with
      | none => simp
      | some p =>
        obtain ⟨t, content⟩ := p
        simp only
        split
        · simp
        · split
          · refine le_trans (ih _ _ _ _) (le_trans (ih _ _ _ _) ?_)
            simp
          · split
            · refine le_trans (ih _ _ _ _) ?_
              simp
            · simp

/-- Starting the item loop on a line that is itself a list item at the
loop's own indentation consumes that line. -/
theorem collectItems_start (t : LTag) (content l : String) (rest : List String)
    (hgi : getListItem l = some (t, content)) :
    ((collectItems t (getIndentation l) (rest.length + 1) [] (l :: rest)).2).length ≤
      rest.length := by
  simp only [collectItems, hgi]
  rw [if_neg (lt_irrefl _), if_neg (lt_irrefl _), if_pos]
  · exact collectItems_snd_length_le _ _ _ _ _
  · simp

/-- The block renderer never produces more blocks than input lines (in
particular it consumes its input and terminates on every input,
malformed or not). -/
theorem renderBlocks_length_le :
    ∀ (fuel : Nat) (ls : List String),
      (renderBlocks fuel ls).length ≤ ls.length := by
  intro fuel
  induction fuel with
  | zero => intro ls; simp [renderBlocks]
  | succ fuel ih =>
    intro ls
    match ls with
    | [] => simp [renderBlocks]
    | l :: rest =>
      simp only [renderBlocks]
      split
      · simpa using Nat.succ_le_succ (ih rest)
      · split
        · simpa using Nat.succ_le_succ (ih rest)
        · split
          · simpa using Nat.succ_le_succ (ih rest)
          · split
            · next hq =>
              simp only [List.length_cons]
              rw [List.dropWhile_cons, if_pos hq]
              refine Nat.succ_le_succ ?_
              exact le_trans (ih _) (List.dropWhile_sublist _).length_le
            · split
              · simp only [List.length_cons]
                refine Nat.succ_le_succ ?_
                refine le_trans (ih _) ?_
                rw [List.length_drop]
                omega
              · split
                · next t content heq =>
                  simp only [List.length_cons]
                  refine Nat.succ_le_succ ?_
                  exact le_trans (ih _) (collectItems_start t content l rest heq)
                · next _heq =>
                  split
                  · exact le_trans (ih rest) (by simp)
                  · simpa using Nat.succ_le_succ (ih rest)

/-- C9 counterexample: for the input `a**b` the renderer does not leave
the stray `**` as literal text — the single-asterisk pass pairs the two
asterisks into an empty emphasis node, and no text segment of the output
contains an asterisk at all. -/
theorem claim_C9_counterexample :
    renderInline "a**b" = [Inline.text "a", Inline.em "", Inline.text "b"] ∧
    ((renderInline "a**b").any fun seg =>
      match seg with
      | Inline.text s => (splitFirst ['*'] s.data).isSome
      | _ => false) = false :=
  ⟨rfl, rfl⟩

/-- C9 amended: the renderer is total — marker-free text passes through
as a single literal segment and the block renderer always returns a
display tree with at most one block per input line — and a lone
unpairable marker (a single `*`) is left as literal text, but a stray
`**` is consumed by the single-asterisk pass into an empty emphasis node
rather than being left literal. -/
theorem claim_C9_amended :
    (∀ s : String, (∀ ch ∈ s.data, ch ≠ '*' ∧ ch ≠ '`') →
      renderInline s = [Inline.text s]) ∧
    renderInline "a*b" = [Inline.text "a*b"] ∧
    renderInline "a**b" = [Inline.text "a", Inline.em "", Inline.text "b"] ∧
    (∀ content : String,
      (MarkdownRenderer content).length ≤ (splitLines content).length) := by
  refine ⟨renderInline_no_markers, rfl, rfl, ?_⟩
  intro content
  exact renderBlocks_length_le _ _

/-- Witness for the amended C9 at concrete marker-free text. -/
theorem claim_C9_amended_witness :
    renderInline "hello world" = [Inline.text "hello world"] :=
  claim_C9_amended.1 "hello world" (by decide)

end StudyPal
